import Mathlib

/-!
Verification development for the two declaration files of this repository:
`types/jsonwebtoken-promisified/index.d.ts` (a JWT sign/verify/decode
surface) and `types/three/examples/jsm/loaders/FontLoader.d.ts` (a font
loader producing vector shapes).

The repository contains ambient type declarations only; no executable
implementation lives under `src/`.  The type-level structure (the `Secret`
union, the error-class hierarchy, the option interfaces) is embedded
directly from the declaration file.  Behaviour (what `sign`, `verify`,
`decode`, `parse`, `generateShapes` compute) is modelled from the spec,
as marked on each definition.
-/

namespace Jwt

/-- Signature algorithms enumerated in the `SignOptions.algorithm` doc
comment of `index.d.ts` (HS*, RS*, ES*, none). -/
inductive Algorithm
  | HS256 | HS384 | HS512
  | RS256 | RS384 | RS512
  | ES256 | ES384 | ES512
  | noneAlg
  deriving DecidableEq, Repr

/-- HS256/HS384/HS512 are the symmetric (HMAC) algorithms. -/
def Algorithm.isSymmetric : Algorithm → Bool
  | .HS256 | .HS384 | .HS512 => true
  | _ => false

/-- Raw key material: the `string | Buffer` forms shared by signing and
verification (a Buffer is modelled as its byte list). -/
inductive KeyMat
  | str (s : String)
  | buf (b : List Nat)
  deriving DecidableEq, Repr

/-- The `Secret` type of `index.d.ts` line 88:
`string | Buffer | \x7b key: string; passphrase: string \x7d`. -/
inductive Secret
  | str (s : String)
  | buf (b : List Nat)
  | keyPassphrase (key : String) (passphrase : String)
  deriving DecidableEq, Repr

/-- The key type accepted by every overload of `verify` and by
`verifyAsync` in `index.d.ts`: `string | Buffer` only. -/
inductive VerifyKey
  | str (s : String)
  | buf (b : List Nat)
  deriving DecidableEq, Repr

/-- The evident partial embedding of `Secret` into the key type of
`verify`: the two shared forms map across, the passphrase-protected
form has no counterpart. -/
def secretAsVerifyKey : Secret → Option VerifyKey
  | .str s => some (.str s)
  | .buf b => some (.buf b)
  | .keyPassphrase _ _ => none

/-- Key material carried by a `Secret` (for a passphrase-protected key
object the material is the `key` member). -/
def Secret.mat : Secret → KeyMat
  | .str s => .str s
  | .buf b => .buf b
  | .keyPassphrase k _ => .str k

/-- Key material carried by a verification key. -/
def VerifyKey.mat : VerifyKey → KeyMat
  | .str s => .str s
  | .buf b => .buf b

/-- A claim value: claims in a payload are JSON values; numbers and
strings suffice for the registered and custom claims modelled here. -/
inductive ClaimVal
  | num (n : Int)
  | str (s : String)
  deriving DecidableEq, Repr

/-- Modelled from the spec: the decoded form of a token's payload.  The
registered claims (`iat`, `exp`, `nbf`, `aud`, `sub`, `iss`, `jti`) are
kept as structured fields; the caller's own claims are the `custom`
association list.  Timestamps are epoch seconds as integers. -/
structure Claims where
  custom : List (String × ClaimVal)
  iat : Option Int
  exp : Option Int
  nbf : Option Int
  aud : Option (List String)
  sub : Option String
  iss : Option String
  jti : Option String
  deriving DecidableEq, Repr

/-- The `SignOptions` interface of `index.d.ts` lines 30-57.
`expiresIn`/`notBefore` are modelled in their numeric (seconds) form;
`audience` in its list form; `header` and `encoding` do not affect the
behaviour modelled here and are omitted. -/
structure SignOptions where
  algorithm : Option Algorithm := none
  keyid : Option String := none
  expiresIn : Option Int := none
  notBefore : Option Int := none
  audience : Option (List String) := none
  subject : Option String := none
  issuer : Option String := none
  jwtid : Option String := none
  noTimestamp : Bool := false
  deriving DecidableEq, Repr

/-- The `VerifyOptions` interface of `index.d.ts` lines 59-74.
`issuer` is modelled in its list form, `maxAge` in its numeric form. -/
structure VerifyOptions where
  algorithms : Option (List Algorithm) := none
  audience : Option (List String) := none
  clockTimestamp : Option Int := none
  clockTolerance : Option Int := none
  issuer : Option (List String) := none
  ignoreExpiration : Bool := false
  ignoreNotBefore : Bool := false
  jwtid : Option String := none
  subject : Option String := none
  maxAge : Option Int := none
  deriving DecidableEq, Repr

/-- The `JsonWebTokenError` class of `index.d.ts` lines 12-16: a message
plus an optional inner cause (`inner: Error`, set from the optional
constructor argument). -/
structure JsonWebTokenError where
  message : String
  inner : Option String
  deriving DecidableEq, Repr

/-- The `TokenExpiredError` class of `index.d.ts` lines 18-22: it
`extends JsonWebTokenError` and carries `expiredAt: number` (modelled as
the epoch-seconds instant). -/
structure TokenExpiredError where
  toJsonWebTokenError : JsonWebTokenError
  expiredAt : Int
  deriving DecidableEq, Repr

/-- The `NotBeforeError` class of `index.d.ts` lines 24-28: it
`extends JsonWebTokenError` and carries `date: Date` (modelled as the
epoch-seconds instant). -/
structure NotBeforeError where
  toJsonWebTokenError : JsonWebTokenError
  date : Int
  deriving DecidableEq, Repr

/-- The error union a verification can surface, as in the `VerifyCallback`
type of `index.d.ts` lines 81-84:
`JsonWebTokenError | NotBeforeError | TokenExpiredError`. -/
inductive VerifyError
  | base (e : JsonWebTokenError)
  | expired (e : TokenExpiredError)
  | notBefore (e : NotBeforeError)
  deriving DecidableEq, Repr

/-- Every verification error is in particular a `JsonWebTokenError`
(the two specialised classes extend the base class). -/
def VerifyError.toBase : VerifyError → JsonWebTokenError
  | .base e => e
  | .expired e => e.toJsonWebTokenError
  | .notBefore e => e.toJsonWebTokenError

/-- A signing-side error (spec: "Fails with a signing error when the key
material is incompatible with the requested algorithm"). -/
structure SignError where
  message : String
  deriving DecidableEq, Repr

/-- Modelled from the spec: the ideal signature value attached to a
token.  The spec treats the token as an opaque signed artifact whose
signature binds the algorithm, the key material and the signed claims;
an ideal MAC is modelled as that triple itself, so two signatures agree
exactly when algorithm, key and signed content agree. -/
structure Sig where
  alg : Algorithm
  mat : KeyMat
  signedClaims : Claims
  deriving DecidableEq, Repr

/-- Modelled from the spec: the token produced by `sign` ("an opaque
signed string artifact; its decoded form is either a mapping of claims
or a raw string payload").  The wire string is opaque, so the token is
modelled by its content: header algorithm, claims, and signature
(`none` for the `none` algorithm, which includes no MAC). -/
structure Token where
  alg : Algorithm
  keyid : Option String
  claims : Claims
  sig : Option Sig
  deriving DecidableEq, Repr

/-- Modelled from the spec: the claims `sign` embeds for payload `p`
under options `o` at epoch time `now` — the caller's claims plus the
registered claims derived from the options (`iat` unless suppressed by
`noTimestamp`, `exp` at `now + expiresIn`, `nbf` at `now + notBefore`,
and audience/subject/issuer/token-id from the options). -/
def signedClaims (p : List (String × ClaimVal)) (o : SignOptions) (now : Int) : Claims :=
  { custom := p
    iat := if o.noTimestamp then none else some now
    exp := o.expiresIn.map (fun d => now + d)
    nbf := o.notBefore.map (fun d => now + d)
    aud := o.audience
    sub := o.subject
    iss := o.issuer
    jti := o.jwtid }

/-- Modelled from the spec: the `sign` operation of `index.d.ts`
lines 97-101 ("Synchronously sign the given payload into a JSON Web
Token string"), whose implementation is not part of this repository.
The current time `now` is an explicit argument.  A symmetric (HMAC)
algorithm requires shared-secret material, so a passphrase-protected
key object is incompatible with it and signing fails; otherwise the
token carries the derived claims and the ideal signature (no signature
for algorithm `none`). -/
def sign (p : List (String × ClaimVal)) (secret : Secret) (o : SignOptions)
    (now : Int) : Except SignError Token :=
  let alg := o.algorithm.getD .HS256
  if alg.isSymmetric then
    match secret with
    | .keyPassphrase _ _ =>
        .error ⟨"secretOrPrivateKey must be a symmetric key when using HMAC"⟩
    | s =>
        let cs := signedClaims p o now
        .ok ⟨alg, o.keyid, cs, some ⟨alg, s.mat, cs⟩⟩
  else
    let cs := signedClaims p o now
    if alg = .noneAlg then
      .ok ⟨alg, o.keyid, cs, none⟩
    else
      .ok ⟨alg, o.keyid, cs, some ⟨alg, secret.mat, cs⟩⟩

/-- Modelled from the spec: the `verify` operation of `index.d.ts`
lines 142-146, whose implementation is not part of this repository.
Checks run in order: acceptable algorithm, signature against the
supplied key material, not-before (unless `ignoreNotBefore`),
expiration (unless `ignoreExpiration`), audience, issuer, subject,
token id, and the deprecated `maxAge` bound; the first failure is
surfaced ("expired" as `TokenExpiredError` carrying the expiration
instant, "not yet valid" as `NotBeforeError` carrying the activation
instant, anything else as the base `JsonWebTokenError`).  The clock is
`clockTimestamp` when given, else `now`; `clockTolerance` defaults
to 0. -/
def verify (t : Token) (key : VerifyKey) (o : VerifyOptions)
    (now : Int) : Except VerifyError Claims :=
  let clock := o.clockTimestamp.getD now
  let tol := o.clockTolerance.getD 0
  if (match o.algorithms with
      | some algs => algs.contains t.alg
      | none => true) = false then
    .error (.base ⟨"invalid algorithm", none⟩)
  else
    match t.sig with
    | none => .error (.base ⟨"jwt signature is required", none⟩)
    | some s =>
      if s.alg = t.alg ∧ s.mat = key.mat ∧ s.signedClaims = t.claims then
        match t.claims.nbf with
        | some n =>
          if ¬ o.ignoreNotBefore ∧ clock + tol < n then
            .error (.notBefore ⟨⟨"jwt not active", none⟩, n⟩)
          else
            verifyAfterNbf t o clock tol
        | none => verifyAfterNbf t o clock tol
      else
        .error (.base ⟨"invalid signature", none⟩)
where
  /-- The temporal and claim checks that follow a successful signature
  check. -/
  verifyAfterNbf (t : Token) (o : VerifyOptions) (clock tol : Int) :
      Except VerifyError Claims :=
    match t.claims.exp with
    | some e =>
      if ¬ o.ignoreExpiration ∧ e + tol ≤ clock then
        .error (.expired ⟨⟨"jwt expired", none⟩, e⟩)
      else
        verifyClaims t o clock tol
    | none => verifyClaims t o clock tol
  /-- Audience, issuer, subject, token-id and max-age checks. -/
  verifyClaims (t : Token) (o : VerifyOptions) (clock tol : Int) :
      Except VerifyError Claims :=
    match o.audience with
    | some expected =>
      if (t.claims.aud.getD []).any (fun a => expected.contains a) then
        verifyIss t o clock tol
      else
        .error (.base ⟨"jwt audience invalid", none⟩)
    | none => verifyIss t o clock tol
  /-- Issuer, subject, token-id and max-age checks. -/
  verifyIss (t : Token) (o : VerifyOptions) (clock tol : Int) :
      Except VerifyError Claims :=
    match o.issuer with
    | some expected =>
      match t.claims.iss with
      | some i =>
        if expected.contains i then verifySub t o clock tol
        else .error (.base ⟨"jwt issuer invalid", none⟩)
      | none => .error (.base ⟨"jwt issuer invalid", none⟩)
    | none => verifySub t o clock tol
  /-- Subject, token-id and max-age checks. -/
  verifySub (t : Token) (o : VerifyOptions) (clock tol : Int) :
      Except VerifyError Claims :=
    match o.subject with
    | some expected =>
      if t.claims.sub = some expected then verifyJti t o clock tol
      else .error (.base ⟨"jwt subject invalid", none⟩)
    | none => verifyJti t o clock tol
  /-- Token-id and max-age checks. -/
  verifyJti (t : Token) (o : VerifyOptions) (clock tol : Int) :
      Except VerifyError Claims :=
    match o.jwtid with
    | some expected =>
      if t.claims.jti = some expected then verifyMaxAge t o clock tol
      else .error (.base ⟨"jwt jwtid invalid", none⟩)
    | none => verifyMaxAge t o clock tol
  /-- The deprecated `maxAge` bound: with an `iat` claim present, the
  token is treated as expired `maxAge` seconds after issuance. -/
  verifyMaxAge (t : Token) (o : VerifyOptions) (clock tol : Int) :
      Except VerifyError Claims :=
    match o.maxAge, t.claims.iat with
    | some m, some i =>
      if i + m + tol ≤ clock then
        .error (.expired ⟨⟨"maxAge exceeded", none⟩, i + m⟩)
      else
        .ok t.claims
    | _, _ => .ok t.claims

/-- Split a character list on a separator character; the result always
has one more segment than there are separators. -/
def splitOnChar (sep : Char) : List Char → List (List Char)
  | [] => [[]]
  | c :: cs =>
    if c = sep then [] :: splitOnChar sep cs
    else
      match splitOnChar sep cs with
      | [] => [[c]]
      | s :: ss => (c :: s) :: ss

/-- Modelled from the spec: one `key=value` entry of a serialized claims
segment; the key must be non-empty. -/
def parsePair (seg : List Char) : Option (String × String) :=
  match splitOnChar '=' seg with
  | [k, v] => if k.isEmpty then none else some (String.mk k, String.mk v)
  | _ => none

/-- Modelled from the spec: parse a payload segment into a claims
mapping (`key=value` entries separated by `;`); `none` when the segment
is not such a mapping, in which case the payload stands as a raw
string. -/
def parseClaimsSeg (p : List Char) : Option (List (String × String)) :=
  (splitOnChar ';' p).mapM parsePair

/-- Modelled from the spec: the `decode` operation of `index.d.ts`
lines 185-188 ("Returns the decoded payload without verifying if the
signature is valid"), whose implementation is not part of this
repository.  A token string is three dot-separated segments
(header, payload, signature); on anything else `decode` returns `none`
("null on unparseable input rather than failing").  On a token it
returns the payload's claims mapping when the payload segment parses,
else the raw payload string; the signature segment is never examined. -/
def decode (s : String) : Option (Sum (List (String × String)) String) :=
  match splitOnChar '.' s.toList with
  | [_, p, _] =>
    match parseClaimsSeg p with
    | some cs => some (Sum.inl cs)
    | none => some (Sum.inr (String.mk p))
  | _ => none

/-- The settled state of a promise: resolved with a value or rejected
with an error. -/
inductive PromiseResult (ε α : Type)
  | resolved (a : α)
  | rejected (e : ε)
  deriving DecidableEq, Repr

/-- Modelled from the spec: the `signAsync` form of `index.d.ts`
lines 129-133, "the underlying cryptographic operation is identical" to
the synchronous form, so the promise settles with the synchronous
outcome. -/
def signAsync (p : List (String × ClaimVal)) (secret : Secret)
    (o : SignOptions) (now : Int) : PromiseResult SignError Token :=
  match sign p secret o now with
  | .ok t => .resolved t
  | .error e => .rejected e

/-- Modelled from the spec: the callback form of `sign` (`index.d.ts`
lines 110-120 with `SignCallback`): the callback is invoked once, in
node style, with either the error or the token of the underlying
synchronous operation. -/
def signWithCallback {α : Type} (p : List (String × ClaimVal)) (secret : Secret)
    (o : SignOptions) (now : Int)
    (cb : Option SignError → Option Token → α) : α :=
  match sign p secret o now with
  | .ok t => cb none (some t)
  | .error e => cb (some e) none

/-- Modelled from the spec: the `verifyAsync` form of `index.d.ts`
lines 173-177; the promise settles with the synchronous outcome. -/
def verifyAsync (t : Token) (key : VerifyKey) (o : VerifyOptions)
    (now : Int) : PromiseResult VerifyError Claims :=
  match verify t key o now with
  | .ok c => .resolved c
  | .error e => .rejected e

/-- Modelled from the spec: the callback form of `verify` (`index.d.ts`
lines 155-165 with `VerifyCallback`): the callback is invoked once with
either the error or the decoded claims of the underlying synchronous
operation. -/
def verifyWithCallback {α : Type} (t : Token) (key : VerifyKey)
    (o : VerifyOptions) (now : Int)
    (cb : Option VerifyError → Option Claims → α) : α :=
  match verify t key o now with
  | .ok c => cb none (some c)
  | .error e => cb (some e) none

/-- Sign options carrying only an immediate expiration, used as a
concrete instance in the example lemmas. -/
def expireNowOptions : SignOptions := { expiresIn := some 0 }

/-- The default verify options (every field absent or false), used as a
concrete instance in the example lemmas. -/
def emptyVerifyOptions : VerifyOptions := {}

/-- The token `sign` yields for the empty payload under
`expireNowOptions` with the string secret `k` at epoch time 10. -/
def expiredExampleToken : Token :=
  ⟨.HS256, none,
   ⟨[], some 10, some 10, none, none, none, none, none⟩,
   some ⟨.HS256, .str "k", ⟨[], some 10, some 10, none, none, none, none, none⟩⟩⟩

/-- The token `sign` yields for the payload `role=admin` under default
options with the string secret `k` at epoch time 1. -/
def signedExampleToken : Token :=
  ⟨.HS256, none,
   ⟨[("role", .str "admin")], some 1, none, none, none, none, none, none⟩,
   some ⟨.HS256, .str "k",
     ⟨[("role", .str "admin")], some 1, none, none, none, none, none, none⟩⟩⟩

end Jwt

namespace Three

/-- Modelled from the spec: one glyph of the font data — its vector
outline (a list of integer points) and its horizontal advance. -/
structure Glyph where
  outline : List (Int × Int)
  ha : Int
  deriving DecidableEq, Repr

/-- Modelled from the spec: the raw glyph-outline data held by a font —
a mapping from characters to glyphs. -/
structure FontData where
  glyphs : List (Char × Glyph)
  deriving DecidableEq, Repr

/-- Glyph lookup in the font data. -/
def FontData.glyphOf (f : FontData) (c : Char) : Option Glyph :=
  f.glyphs.lookup c

/-- The glyph used when building a shape; missing glyphs are resolved
through `Option.getD` against this placeholder in statements only. -/
def defaultGlyph : Glyph := ⟨[], 0⟩

/-- A vector shape produced from glyph data (the `Shape` imported by
`FontLoader.d.ts`), reduced to its outline points. -/
structure Shape where
  pts : List (Int × Int)
  deriving DecidableEq, Repr

/-- Modelled from the spec: the shape a glyph yields at a given size
and horizontal offset — the outline scaled to the requested size and
translated by the cumulative advance. -/
def shapeOf (g : Glyph) (size off : Int) : Shape :=
  ⟨g.outline.map (fun q => (q.1 * size + off, q.2 * size))⟩

/-- Modelled from the spec: the character loop of `generateShapes` —
for each character look up its outline in the font data, scale it to
the requested size, emit a shape positioned at the current offset, and
advance the offset by the glyph's advance; a character with no glyph is
skipped (the spec leaves missing-glyph policy open). -/
def genList (f : FontData) (size : Int) : List Char → Int → List Shape
  | [], _ => []
  | c :: cs, off =>
    match f.glyphOf c with
    | some g => shapeOf g size off :: genList f size cs (off + g.ha * size)
    | none => genList f size cs off

/-- The `Font` class of `FontLoader.d.ts` lines 9-20: a type tag
(default value `Font`) and the raw glyph-outline data. -/
structure Font where
  type : String := "Font"
  data : FontData
  deriving DecidableEq, Repr

/-- Modelled from the spec: `Font.generateShapes(text, size)` of
`FontLoader.d.ts` line 19 — an ordered sequence of shapes, one per
character of the text, built by `genList` starting at offset 0. -/
def Font.generateShapes (fnt : Font) (text : String) (size : Int) : List Shape :=
  genList fnt.data size text.toList 0

/-- Cumulative glyph advance of a prefix of characters, at a given
size. -/
def cumAdvance (f : FontData) (size : Int) (cs : List Char) : Int :=
  (cs.map (fun c => ((f.glyphOf c).getD defaultGlyph).ha * size)).sum

/-- A JSON-like value: the `json: any` argument of `FontLoader.parse`. -/
inductive JValue
  | jnull
  | jbool (b : Bool)
  | jnum (n : Int)
  | jstr (s : String)
  | jarr (xs : List JValue)
  | jobj (fields : List (String × JValue))

/-- Modelled from the spec: an outline array is a flat even-length list
of numbers read off as coordinate pairs. -/
def parsePts : List JValue → Option (List (Int × Int))
  | [] => some []
  | .jnum x :: .jnum y :: rest => (parsePts rest).map (fun ps => (x, y) :: ps)
  | _ => none

/-- Modelled from the spec: a glyph description is an object with a
numeric `ha` (advance) and an `o` outline array. -/
def parseGlyph : JValue → Option Glyph
  | .jobj fields =>
    match fields.lookup "ha", fields.lookup "o" with
    | some (.jnum h), some (.jarr pts) => (parsePts pts).map (fun ps => ⟨ps, h⟩)
    | _, _ => none
  | _ => none

/-- Modelled from the spec: the glyph table maps single-character keys
to glyph descriptions; any malformed entry fails the whole table. -/
def parseGlyphMap : List (String × JValue) → Option (List (Char × Glyph))
  | [] => some []
  | (k, v) :: rest =>
    match k.toList, parseGlyph v with
    | [c], some g => (parseGlyphMap rest).map (fun m => (c, g) :: m)
    | _, _ => none

/-- Modelled from the spec: `FontLoader.parse` of `FontLoader.d.ts`
lines 3-7 — "deserializes a glyph-outline description into a Font
value; fails (in a conformant implementation) on structurally invalid
input".  A description is an object whose `glyphs` field is an object
of well-formed glyph entries. -/
def parseFont (j : JValue) : Except String Font :=
  match j with
  | .jobj fields =>
    match fields.lookup "glyphs" with
    | some (.jobj gs) =>
      match parseGlyphMap gs with
      | some m => .ok { data := ⟨m⟩ }
      | none => .error "malformed glyph entry"
    | _ => .error "glyph table missing or not an object"
  | _ => .error "font description must be an object"

/-- Structural validity of an outline array, written from the spec's
words as a predicate: numbers only, in pairs. -/
def validPts : List JValue → Bool
  | [] => true
  | .jnum _ :: .jnum _ :: rest => validPts rest
  | _ => false

/-- Structural validity of a glyph description, written from the spec's
words as a predicate. -/
def validGlyph (v : JValue) : Bool :=
  match v with
  | .jobj fields =>
    (match fields.lookup "ha" with
     | some (.jnum _) => true
     | _ => false) &&
    (match fields.lookup "o" with
     | some (.jarr pts) => validPts pts
     | _ => false)
  | _ => false

/-- Structural validity of a whole glyph-outline description, written
from the spec's words as a predicate to compare against `parseFont`. -/
def validFontDesc (j : JValue) : Bool :=
  match j with
  | .jobj fields =>
    match fields.lookup "glyphs" with
    | some (.jobj gs) =>
      gs.all (fun kv => kv.1.toList.length = 1 && validGlyph kv.2)
    | _ => false
  | _ => false

/-- A concrete two-glyph font used by the example lemmas: glyphs for
`A` and `B` with distinct outlines and advances. -/
def exampleFont : Font :=
  { data := ⟨[('A', ⟨[(0, 0), (1, 2)], 3⟩), ('B', ⟨[(0, 0), (2, 1)], 4⟩)]⟩ }

/-- A structurally valid glyph-outline description for `exampleFont`'s
glyph table, used as a concrete instance in the example lemmas. -/
def goodFontDesc : JValue :=
  .jobj [("glyphs", .jobj
    [("A", .jobj [("ha", .jnum 3), ("o", .jarr [.jnum 0, .jnum 0, .jnum 1, .jnum 2])]),
     ("B", .jobj [("ha", .jnum 4), ("o", .jarr [.jnum 0, .jnum 0, .jnum 2, .jnum 1])])])]

/-- A structurally invalid glyph-outline description (its outline array
has odd length), used as a concrete instance in the example lemmas. -/
def badFontDesc : JValue :=
  .jobj [("glyphs", .jobj
    [("A", .jobj [("ha", .jnum 3), ("o", .jarr [.jnum 0])])])]

end Three

/-- C6: the error taxonomy is a base signing/verification error
(message plus optional inner cause) with exactly two specialisations —
an expired variant carrying the expiration instant and a not-yet-valid
variant carrying the activation instant — each of which embeds the base
error. -/
theorem jwt_error_taxonomy :
    (∀ e : Jwt.VerifyError,
      (∃ b, e = .base b) ∨ (∃ t, e = .expired t) ∨ (∃ n, e = .notBefore n)) ∧
    (∀ b : Jwt.JsonWebTokenError, (Jwt.VerifyError.base b).toBase = b) ∧
    (∀ t : Jwt.TokenExpiredError,
      (Jwt.VerifyError.expired t).toBase = t.toJsonWebTokenError) ∧
    (∀ n : Jwt.NotBeforeError,
      (Jwt.VerifyError.notBefore n).toBase = n.toJsonWebTokenError) ∧
    (∀ m i x, (⟨⟨m, i⟩, x⟩ : Jwt.TokenExpiredError).expiredAt = x ∧
              (⟨⟨m, i⟩, x⟩ : Jwt.TokenExpiredError).toJsonWebTokenError.inner = i) ∧
    (∀ m i x, (⟨⟨m, i⟩, x⟩ : Jwt.NotBeforeError).date = x ∧
              (⟨⟨m, i⟩, x⟩ : Jwt.NotBeforeError).toJsonWebTokenError.inner = i) := by
  refine ⟨fun e => ?_, fun _ => rfl, fun _ => rfl, fun _ => rfl,
    fun _ _ _ => ⟨rfl, rfl⟩, fun _ _ _ => ⟨rfl, rfl⟩⟩
  cases e with
  | base b => exact Or.inl ⟨b, rfl⟩
  | expired t => exact Or.inr (Or.inl ⟨t, rfl⟩)
  | notBefore n => exact Or.inr (Or.inr ⟨n, rfl⟩)

/-- C10: the `Secret` union accepted by signing admits a
passphrase-protected key object besides the string and Buffer forms,
while every verification key is a string or Buffer only; under the
evident embedding the passphrase-protected form is exactly the one with
no verification-key counterpart, and every verification-key form is
also a signing secret. -/
theorem jwt_verify_key_excludes_passphrase_secret :
    (∀ k p, Jwt.secretAsVerifyKey (.keyPassphrase k p) = none) ∧
    (∀ s : Jwt.Secret,
      Jwt.secretAsVerifyKey s = none ↔ ∃ k p, s = .keyPassphrase k p) ∧
    (∀ v : Jwt.VerifyKey, ∃ s : Jwt.Secret, Jwt.secretAsVerifyKey s = some v) := by
  refine ⟨fun _ _ => rfl, fun s => ?_, fun v => ?_⟩
  · cases s with
    | str s => simp [Jwt.secretAsVerifyKey]
    | buf b => simp [Jwt.secretAsVerifyKey]
    | keyPassphrase k p => simp [Jwt.secretAsVerifyKey]
  · cases v with
    | str s => exact ⟨.str s, rfl⟩
    | buf b => exact ⟨.buf b, rfl⟩

/-- C8: generating shapes twice from the same font data with the same
text and size yields equal results — the same shape count and the same
geometry. -/
theorem font_generateShapes_deterministic
    (fnt : Three.Font) (text : String) (size : Int)
    (r1 r2 : List Three.Shape)
    (h1 : r1 = fnt.generateShapes text size)
    (h2 : r2 = fnt.generateShapes text size) :
    r1.length = r2.length ∧ r1 = r2 := by
  subst h1; subst h2; exact ⟨rfl, rfl⟩

/-- Witness for C8 at the concrete example font, text `AB`, size 10. -/
theorem font_generateShapes_deterministic_witness :
    (Three.exampleFont.generateShapes "AB" 10).length =
      (Three.exampleFont.generateShapes "AB" 10).length ∧
    Three.exampleFont.generateShapes "AB" 10 =
      Three.exampleFont.generateShapes "AB" 10 :=
  font_generateShapes_deterministic Three.exampleFont "AB" 10 _ _ rfl rfl

/-- C5: the promise-based and callback-based forms of `sign` and
`verify` are observably equivalent to the synchronous form — the
promise resolves (or rejects) exactly with the synchronous result (or
error), and the callback observes exactly that same outcome. -/
theorem jwt_forms_observably_equivalent :
    ∀ (p : List (String × Jwt.ClaimVal)) (secret : Jwt.Secret)
      (o : Jwt.SignOptions) (t : Jwt.Token) (key : Jwt.VerifyKey)
      (vo : Jwt.VerifyOptions) (now now2 : Int),
    (∀ tk, Jwt.signAsync p secret o now = .resolved tk ↔
           Jwt.sign p secret o now = .ok tk) ∧
    (∀ e, Jwt.signAsync p secret o now = .rejected e ↔
          Jwt.sign p secret o now = .error e) ∧
    (∀ tk, Jwt.signWithCallback p secret o now
             (fun err res => err = none ∧ res = some tk) ↔
           Jwt.sign p secret o now = .ok tk) ∧
    (∀ e, Jwt.signWithCallback p secret o now
            (fun err res => err = some e ∧ res = none) ↔
          Jwt.sign p secret o now = .error e) ∧
    (∀ c, Jwt.verifyAsync t key vo now2 = .resolved c ↔
          Jwt.verify t key vo now2 = .ok c) ∧
    (∀ e, Jwt.verifyAsync t key vo now2 = .rejected e ↔
          Jwt.verify t key vo now2 = .error e) ∧
    (∀ c, Jwt.verifyWithCallback t key vo now2
            (fun err res => err = none ∧ res = some c) ↔
          Jwt.verify t key vo now2 = .ok c) ∧
    (∀ e, Jwt.verifyWithCallback t key vo now2
            (fun err res => err = some e ∧ res = none) ↔
          Jwt.verify t key vo now2 = .error e) := by
  intro p secret o t key vo now now2
  cases hs : Jwt.sign p secret o now <;>
    cases hv : Jwt.verify t key vo now2 <;>
      refine ⟨fun tk => ?_, fun e => ?_, fun tk => ?_, fun e => ?_,
        fun c => ?_, fun e => ?_, fun c => ?_, fun e => ?_⟩ <;>
        simp [Jwt.signAsync, Jwt.signWithCallback, Jwt.verifyAsync,
          Jwt.verifyWithCallback, hs, hv, eq_comm]

/-- Splitting a list that does not contain the separator yields the one
segment. -/
theorem splitOnChar_no_sep (sep : Char) (a : List Char) (ha : sep ∉ a) :
    Jwt.splitOnChar sep a = [a] := by
  induction a with
  | nil => rfl
  | cons c cs ih =>
    have hc : ¬ c = sep := fun h => ha (h ▸ List.mem_cons_self c cs)
    have hcs : sep ∉ cs := fun h => ha (List.mem_cons_of_mem c h)
    simp [Jwt.splitOnChar, hc, ih hcs]

/-- Splitting at the first separator: the separator-free prefix becomes
the head segment. -/
theorem splitOnChar_append_sep (sep : Char) (a b : List Char) (ha : sep ∉ a) :
    Jwt.splitOnChar sep (a ++ sep :: b) = a :: Jwt.splitOnChar sep b := by
  induction a with
  | nil => simp [Jwt.splitOnChar]
  | cons c cs ih =>
    have hc : ¬ c = sep := fun h => ha (h ▸ List.mem_cons_self c cs)
    have hcs : sep ∉ cs := fun h => ha (List.mem_cons_of_mem c h)
    simp [Jwt.splitOnChar, hc, ih hcs]

/-- C4: `decode` never throws — on every input it yields the claims
mapping, the raw payload string, or `null` — it yields `null` exactly
when the input does not split into the three dot-separated token
segments, and it performs no signature check: the signature segment
never influences the result. -/
theorem jwt_decode_null_on_nontoken_no_sigcheck :
    (∀ s : String, (Jwt.splitOnChar '.' s.toList).length ≠ 3 →
      Jwt.decode s = none) ∧
    (∀ s : String, Jwt.decode s = none ∨
      (∃ cs, Jwt.decode s = some (Sum.inl cs)) ∨
      (∃ p, Jwt.decode s = some (Sum.inr p))) ∧
    (∀ h p s1 s2 : List Char, '.' ∉ h → '.' ∉ p → '.' ∉ s1 → '.' ∉ s2 →
      Jwt.decode (String.mk (h ++ '.' :: (p ++ '.' :: s1))) =
      Jwt.decode (String.mk (h ++ '.' :: (p ++ '.' :: s2)))) := by
  refine ⟨fun s hs => ?_, fun s => ?_, fun h p s1 s2 hh hp hs1 hs2 => ?_⟩
  · unfold Jwt.decode
    rcases hl : Jwt.splitOnChar '.' s.toList with _ | ⟨a, _ | ⟨b, _ | ⟨c, _ | ⟨d, l⟩⟩⟩⟩
    · rfl
    · rfl
    · rfl
    · exact absurd (by rw [hl]; rfl) hs
    · rfl
  · unfold Jwt.decode
    rcases Jwt.splitOnChar '.' s.toList with _ | ⟨a, _ | ⟨b, _ | ⟨c, _ | ⟨d, l⟩⟩⟩⟩
    · exact Or.inl rfl
    · exact Or.inl rfl
    · exact Or.inl rfl
    · rcases hc : Jwt.parseClaimsSeg b with _ | cs
      · exact Or.inr (Or.inr ⟨String.mk b, by simp [hc]⟩)
      · exact Or.inr (Or.inl ⟨cs, by simp [hc]⟩)
    · exact Or.inl rfl
  · have e1 : (String.mk (h ++ '.' :: (p ++ '.' :: s1))).toList =
      h ++ '.' :: (p ++ '.' :: s1) := rfl
    have e2 : (String.mk (h ++ '.' :: (p ++ '.' :: s2))).toList =
      h ++ '.' :: (p ++ '.' :: s2) := rfl
    unfold Jwt.decode
    rw [e1, e2, splitOnChar_append_sep _ _ _ hh, splitOnChar_append_sep _ _ _ hp,
      splitOnChar_no_sep _ _ hs1, splitOnChar_append_sep _ _ _ hh,
      splitOnChar_append_sep _ _ _ hp, splitOnChar_no_sep _ _ hs2]

/-- Witness for C4: the dot-free string `ab` is not a token and decodes
to `null`, and a signature-tampered token decodes unchanged. -/
theorem jwt_decode_null_on_nontoken_no_sigcheck_witness :
    ((Jwt.splitOnChar '.' (String.toList "ab")).length ≠ 3 ∧
      Jwt.decode "ab" = none) ∧
    Jwt.decode (String.mk (['h'] ++ '.' :: (['p'] ++ '.' :: ['x']))) =
      Jwt.decode (String.mk (['h'] ++ '.' :: (['p'] ++ '.' :: ['y']))) :=
  ⟨⟨by decide, jwt_decode_null_on_nontoken_no_sigcheck.1 "ab" (by decide)⟩,
   jwt_decode_null_on_nontoken_no_sigcheck.2.2 ['h'] ['p'] ['x'] ['y']
     (by decide) (by decide) (by decide) (by decide)⟩

/-- Cumulative advance over a cons: the head glyph's scaled advance
plus the rest. -/
theorem cumAdvance_cons (f : Three.FontData) (size : Int) (c : Char)
    (cs : List Char) :
    Three.cumAdvance f size (c :: cs) =
      ((f.glyphOf c).getD Three.defaultGlyph).ha * size +
        Three.cumAdvance f size cs := by
  simp [Three.cumAdvance]

/-- The character loop of `generateShapes`, at an arbitrary starting
offset: when every character has a glyph it emits one shape per
character, in order, each the character's glyph scaled to the size and
positioned at the starting offset plus the cumulative advance of the
preceding characters. -/
theorem genList_spec (f : Three.FontData) (size : Int) (cs : List Char)
    (off : Int) (h : ∀ c ∈ cs, (f.glyphOf c).isSome = true) :
    (Three.genList f size cs off).length = cs.length ∧
    ∀ i c, cs.get? i = some c →
      (Three.genList f size cs off).get? i =
        some (Three.shapeOf ((f.glyphOf c).getD Three.defaultGlyph) size
          (off + Three.cumAdvance f size (cs.take i))) := by
  induction cs generalizing off with
  | nil => exact ⟨rfl, fun i c hi => by cases i <;> cases hi⟩
  | cons c0 cs ih =>
    have h0 : (f.glyphOf c0).isSome = true := h c0 (List.mem_cons_self c0 cs)
    obtain ⟨g, hg⟩ := Option.isSome_iff_exists.mp h0
    have htail : ∀ c ∈ cs, (f.glyphOf c).isSome = true :=
      fun c hc => h c (List.mem_cons_of_mem c0 hc)
    obtain ⟨ihlen, ihget⟩ := ih (off + g.ha * size) htail
    refine ⟨by simp [Three.genList, hg, ihlen], fun i c hi => ?_⟩
    cases i with
    | zero =>
      obtain rfl : c0 = c := by simpa using hi
      simp [Three.genList, hg, Three.cumAdvance]
    | succ i =>
      have hi' : cs.get? i = some c := by simpa using hi
      have := ihget i c hi'
      simp only [Three.genList, hg, List.get?_cons_succ, List.take_succ_cons,
        cumAdvance_cons, hg, Option.getD_some] at this ⊢
      rw [this]
      ring_nf

/-- C7: for a font whose data covers every character of the text,
`generateShapes` emits exactly one shape per character, in character
order, each shape the character's glyph outline scaled to the requested
size and positioned by the cumulative glyph advance of the preceding
characters. -/
theorem font_generateShapes_per_char_ordered
    (fnt : Three.Font) (text : String) (size : Int)
    (h : ∀ c ∈ text.toList, (fnt.data.glyphOf c).isSome = true) :
    (fnt.generateShapes text size).length = text.length ∧
    ∀ i c, text.toList.get? i = some c →
      (fnt.generateShapes text size).get? i =
        some (Three.shapeOf ((fnt.data.glyphOf c).getD Three.defaultGlyph) size
          (Three.cumAdvance fnt.data size (text.toList.take i))) := by
  obtain ⟨hlen, hget⟩ := genList_spec fnt.data size text.toList 0 h
  exact ⟨hlen, fun i c hi => by simpa using hget i c hi⟩

/-- Witness for C7: the example font covers the text `AB`, so at size
10 exactly 2 shapes come out, in order the scaled `A` glyph at offset 0
and the scaled `B` glyph positioned by `A`'s advance. -/
theorem font_generateShapes_per_char_ordered_witness :
    (∀ c ∈ (String.toList "AB"), (Three.exampleFont.data.glyphOf c).isSome = true) ∧
    (Three.exampleFont.generateShapes "AB" 10).length = ("AB" : String).length ∧
    (∀ i c, (String.toList "AB").get? i = some c →
      (Three.exampleFont.generateShapes "AB" 10).get? i =
        some (Three.shapeOf ((Three.exampleFont.data.glyphOf c).getD Three.defaultGlyph) 10
          (Three.cumAdvance Three.exampleFont.data 10 ((String.toList "AB").take i)))) :=
  ⟨by decide, font_generateShapes_per_char_ordered Three.exampleFont "AB" 10 (by decide)⟩

/-- An outline array parses exactly when it is structurally valid. -/
theorem parsePts_isSome (pts : List Three.JValue) :
    (Three.parsePts pts).isSome = Three.validPts pts := by
  induction pts using Three.parsePts.induct <;>
    simp_all [Three.parsePts, Three.validPts]

/-- A glyph description parses exactly when it is structurally valid. -/
theorem parseGlyph_isSome (v : Three.JValue) :
    (Three.parseGlyph v).isSome = Three.validGlyph v := by
  cases v with
  | jobj fields =>
    simp only [Three.parseGlyph, Three.validGlyph]
    rcases hha : fields.lookup "ha" with _ | vha
    · simp
    · rcases ho : fields.lookup "o" with _ | vo
      · cases vha <;> simp
      · cases vha <;> cases vo <;> simp [parsePts_isSome]
  | jnull => rfl
  | jbool b => rfl
  | jnum n => rfl
  | jstr s => rfl
  | jarr xs => rfl

/-- The glyph table parses exactly when every entry has a
single-character key and a structurally valid glyph. -/
theorem parseGlyphMap_isSome (gs : List (String × Three.JValue)) :
    (Three.parseGlyphMap gs).isSome =
      gs.all (fun kv => kv.1.toList.length = 1 && Three.validGlyph kv.2) := by
  induction gs with
  | nil => rfl
  | cons kv rest ih =>
    obtain ⟨k, v⟩ := kv
    have hv := parseGlyph_isSome v
    simp only [Three.parseGlyphMap, List.all_cons]
    rcases hk : k.toList with _ | ⟨c, _ | ⟨c2, l⟩⟩ <;>
      rcases hpg : Three.parseGlyph v with _ | g <;>
        rw [hpg] at hv <;> simp_all

/-- C9: `parse` returns a `Font` exactly on the structurally valid
glyph-outline descriptions, and fails (with an error, never a `Font`)
on every structurally invalid one. -/
theorem font_parse_ok_iff_structurally_valid (j : Three.JValue) :
    (∃ f, Three.parseFont j = .ok f) ↔ Three.validFontDesc j = true := by
  cases j with
  | jobj fields =>
    simp only [Three.parseFont, Three.validFontDesc]
    rcases hg : fields.lookup "glyphs" with _ | gv
    · simp
    · cases gv with
      | jobj gs =>
        have hm' := parseGlyphMap_isSome gs
        rcases hm : Three.parseGlyphMap gs with _ | m
        · rw [hm] at hm'; simp_all
        · rw [hm] at hm'
          simp_all
          exact hm'
      | jnull => simp
      | jbool b => simp
      | jnum n => simp
      | jstr s => simp
      | jarr xs => simp
  | jnull => simp [Three.parseFont, Three.validFontDesc]
  | jbool b => simp [Three.parseFont, Three.validFontDesc]
  | jnum n => simp [Three.parseFont, Three.validFontDesc]
  | jstr s => simp [Three.parseFont, Three.validFontDesc]
  | jarr xs => simp [Three.parseFont, Three.validFontDesc]

/-- Witness for C9: a concrete well-formed description parses to a
`Font`, a concrete malformed one (odd outline array) does not. -/
theorem font_parse_ok_iff_structurally_valid_witness :
    (∃ f, Three.parseFont Three.goodFontDesc = .ok f) ∧
    ¬ (∃ f, Three.parseFont Three.badFontDesc = .ok f) :=
  ⟨(font_parse_ok_iff_structurally_valid Three.goodFontDesc).mpr (by rfl),
   fun hex => Bool.noConfusion
     (show false = true from
       (font_parse_ok_iff_structurally_valid Three.badFontDesc).mp hex)⟩

/-- A successful `sign` with an algorithm other than `none` yields
exactly the token carrying the derived claims and the ideal signature
over them under the secret's material. -/
theorem sign_ok_structure (p : List (String × Jwt.ClaimVal)) (secret : Jwt.Secret)
    (o : Jwt.SignOptions) (now : Int) (t : Jwt.Token)
    (hsign : Jwt.sign p secret o now = .ok t)
    (halg : o.algorithm.getD .HS256 ≠ .noneAlg) :
    t = ⟨o.algorithm.getD .HS256, o.keyid, Jwt.signedClaims p o now,
         some ⟨o.algorithm.getD .HS256, secret.mat, Jwt.signedClaims p o now⟩⟩ := by
  cases secret with
  | keyPassphrase k pp =>
    by_cases hs : (o.algorithm.getD .HS256).isSymmetric = true
    · simp [Jwt.sign, hs] at hsign
    · simp [Jwt.sign, hs, halg] at hsign
      simp [Jwt.Secret.mat, ← hsign]
  | str s =>
    by_cases hs : (o.algorithm.getD .HS256).isSymmetric = true
    · simp [Jwt.sign, hs] at hsign
      simp [Jwt.Secret.mat, ← hsign]
    · simp [Jwt.sign, hs, halg] at hsign
      simp [Jwt.Secret.mat, ← hsign]
  | buf b =>
    by_cases hs : (o.algorithm.getD .HS256).isSymmetric = true
    · simp [Jwt.sign, hs] at hsign
      simp [Jwt.Secret.mat, ← hsign]
    · simp [Jwt.sign, hs, halg] at hsign
      simp [Jwt.Secret.mat, ← hsign]

/-- Verification succeeds and returns the token's claims when the
signature matches the supplied key and every enabled check passes. -/
theorem verify_ok_of_checks (t : Jwt.Token) (key : Jwt.VerifyKey)
    (vo : Jwt.VerifyOptions) (now2 : Int)
    (hsig : t.sig = some ⟨t.alg, key.mat, t.claims⟩)
    (halgs : ∀ algs, vo.algorithms = some algs → algs.contains t.alg = true)
    (hnbf : ∀ n, t.claims.nbf = some n →
      n ≤ vo.clockTimestamp.getD now2 + vo.clockTolerance.getD 0)
    (hexp : ∀ e, t.claims.exp = some e →
      vo.clockTimestamp.getD now2 < e + vo.clockTolerance.getD 0)
    (haud : ∀ l, vo.audience = some l →
      ((t.claims.aud.getD []).any fun a => l.contains a) = true)
    (hiss : ∀ l, vo.issuer = some l →
      ∃ i, t.claims.iss = some i ∧ l.contains i = true)
    (hsub : ∀ s, vo.subject = some s → t.claims.sub = some s)
    (hjti : ∀ s, vo.jwtid = some s → t.claims.jti = some s)
    (hmax : ∀ m i, vo.maxAge = some m → t.claims.iat = some i →
      vo.clockTimestamp.getD now2 < i + m + vo.clockTolerance.getD 0) :
    Jwt.verify t key vo now2 = .ok t.claims := by
  have ha : (match vo.algorithms with
      | some algs => algs.contains t.alg
      | none => true) = true := by
    rcases va : vo.algorithms with _ | algs
    · rfl
    · exact halgs algs va
  simp only [Jwt.verify, ha, hsig]
  rw [if_neg (by simp)]
  rw [if_pos (by simp)]
  have hstep1 : Jwt.verify.verifyAfterNbf t vo (vo.clockTimestamp.getD now2)
      (vo.clockTolerance.getD 0) = .ok t.claims := by
    have hstep2 : Jwt.verify.verifyClaims t vo (vo.clockTimestamp.getD now2)
        (vo.clockTolerance.getD 0) = .ok t.claims := by
      have hstep3 : Jwt.verify.verifyIss t vo (vo.clockTimestamp.getD now2)
          (vo.clockTolerance.getD 0) = .ok t.claims := by
        have hstep4 : Jwt.verify.verifySub t vo (vo.clockTimestamp.getD now2)
            (vo.clockTolerance.getD 0) = .ok t.claims := by
          have hstep5 : Jwt.verify.verifyJti t vo (vo.clockTimestamp.getD now2)
              (vo.clockTolerance.getD 0) = .ok t.claims := by
            have hstep6 : Jwt.verify.verifyMaxAge t vo
                (vo.clockTimestamp.getD now2)
                (vo.clockTolerance.getD 0) = .ok t.claims := by
              simp only [Jwt.verify.verifyMaxAge]
              rcases hm : vo.maxAge with _ | m
              · rcases t.claims.iat with _ | i <;> rfl
              · rcases hi : t.claims.iat with _ | i
                · rfl
                · have hmi := not_le.mpr (hmax m i hm hi)
                  simp [hmi]
            simp only [Jwt.verify.verifyJti]
            rcases hj : vo.jwtid with _ | s
            · exact hstep6
            · simp [hjti s hj, hstep6]
          simp only [Jwt.verify.verifySub]
          rcases hsu : vo.subject with _ | s
          · exact hstep5
          · simp [hsub s hsu, hstep5]
        simp only [Jwt.verify.verifyIss]
        rcases hisso : vo.issuer with _ | l
        · exact hstep4
        · obtain ⟨i, hi, hc⟩ := hiss l hisso
          simp at hc
          simp [hi, hc, hstep4]
      simp only [Jwt.verify.verifyClaims]
      rcases hau : vo.audience with _ | l
      · exact hstep3
      · have hau' := haud l hau
        simp at hau'
        simp [hau', hstep3]
    simp only [Jwt.verify.verifyAfterNbf]
    rcases he : t.claims.exp with _ | e
    · exact hstep2
    · have hee := not_le.mpr (hexp e he)
      simp [hee, hstep2]
  rcases hn : t.claims.nbf with _ | n
  · exact hstep1
  · have hnn := not_lt.mpr (hnbf n hn)
    simp [hnn, hstep1]

/-- C1: a token signed under a symmetric (HMAC) algorithm verifies
successfully with the same key and consistent options (accepted
algorithm, satisfied temporal bounds, matching audience, issuer,
subject and token id), and the decoded result carries the payload's
claims. -/
theorem jwt_verify_sign_roundtrip
    (p : List (String × Jwt.ClaimVal)) (secret : Jwt.Secret) (key : Jwt.VerifyKey)
    (o : Jwt.SignOptions) (vo : Jwt.VerifyOptions) (now now2 : Int)
    (halg : (o.algorithm.getD .HS256).isSymmetric = true)
    (hsec : ∀ k pp, secret ≠ .keyPassphrase k pp)
    (hkey : secret.mat = key.mat)
    (halgs : ∀ algs, vo.algorithms = some algs →
      algs.contains (o.algorithm.getD .HS256) = true)
    (hnbf : ∀ d, o.notBefore = some d →
      now + d ≤ vo.clockTimestamp.getD now2 + vo.clockTolerance.getD 0)
    (hexp : ∀ d, o.expiresIn = some d →
      vo.clockTimestamp.getD now2 < now + d + vo.clockTolerance.getD 0)
    (haud : ∀ l, vo.audience = some l →
      ((o.audience.getD []).any fun a => l.contains a) = true)
    (hiss : ∀ l, vo.issuer = some l →
      ∃ i, o.issuer = some i ∧ l.contains i = true)
    (hsub : ∀ s, vo.subject = some s → o.subject = some s)
    (hjti : ∀ s, vo.jwtid = some s → o.jwtid = some s)
    (hmax : ∀ m, vo.maxAge = some m → o.noTimestamp = false →
      vo.clockTimestamp.getD now2 < now + m + vo.clockTolerance.getD 0) :
    ∃ t, Jwt.sign p secret o now = .ok t ∧
      Jwt.verify t key vo now2 = .ok (Jwt.signedClaims p o now) ∧
      (Jwt.signedClaims p o now).custom = p := by
  refine ⟨⟨o.algorithm.getD .HS256, o.keyid, Jwt.signedClaims p o now,
    some ⟨o.algorithm.getD .HS256, secret.mat, Jwt.signedClaims p o now⟩⟩,
    ?_, ?_, rfl⟩
  · cases secret with
    | keyPassphrase k pp => exact absurd rfl (hsec k pp)
    | str s => simp [Jwt.sign, halg, Jwt.Secret.mat]
    | buf b => simp [Jwt.sign, halg, Jwt.Secret.mat]
  · refine verify_ok_of_checks _ key vo now2 ?_ ?_ ?_ ?_ ?_ ?_ ?_ ?_ ?_
    · simp [hkey]
    · intro algs h
      exact halgs algs h
    · intro n hn
      simp only [Jwt.signedClaims, Option.map_eq_some'] at hn
      obtain ⟨d, hd, rfl⟩ := hn
      exact hnbf d hd
    · intro e he
      simp only [Jwt.signedClaims, Option.map_eq_some'] at he
      obtain ⟨d, hd, rfl⟩ := he
      exact hexp d hd
    · intro l hl
      exact haud l hl
    · intro l hl
      obtain ⟨i, hi, hc⟩ := hiss l hl
      exact ⟨i, hi, hc⟩
    · intro s hs
      exact hsub s hs
    · intro s hs
      exact hjti s hs
    · intro m i hm hi
      cases hnt : o.noTimestamp with
      | false =>
        simp [Jwt.signedClaims, hnt] at hi
        subst hi
        exact hmax m hm hnt
      | true =>
        simp [Jwt.signedClaims, hnt] at hi

/-- Witness for C1: payload `role=admin`, string secret `k`, default
sign and verify options, signing and verifying at epoch time 1. -/
theorem jwt_verify_sign_roundtrip_witness :
    ∃ t, Jwt.sign [("role", Jwt.ClaimVal.str "admin")] (.str "k") {} 1 = .ok t ∧
      Jwt.verify t (.str "k") Jwt.emptyVerifyOptions 1 =
        .ok (Jwt.signedClaims [("role", Jwt.ClaimVal.str "admin")] {} 1) ∧
      (Jwt.signedClaims [("role", Jwt.ClaimVal.str "admin")] {} 1).custom =
        [("role", Jwt.ClaimVal.str "admin")] :=
  jwt_verify_sign_roundtrip [("role", Jwt.ClaimVal.str "admin")]
    (.str "k") (.str "k") {} Jwt.emptyVerifyOptions 1 1
    (by decide)
    (fun _ _ h => Jwt.Secret.noConfusion h)
    rfl
    (by intro algs h; simp [Jwt.emptyVerifyOptions] at h)
    (by intro d h; simp at h)
    (by intro d h; simp at h)
    (by intro l h; simp [Jwt.emptyVerifyOptions] at h)
    (by intro l h; simp [Jwt.emptyVerifyOptions] at h)
    (by intro s h; simp [Jwt.emptyVerifyOptions] at h)
    (by intro s h; simp [Jwt.emptyVerifyOptions] at h)
    (by intro m h; simp [Jwt.emptyVerifyOptions] at h)

/-- C2: a token signed under a real (non-`none`) algorithm with one
key is rejected by verification under any key with different material,
with the base `JsonWebTokenError` signature-mismatch error — whatever
the token's claims are. -/
theorem jwt_verify_wrong_key_rejected
    (p : List (String × Jwt.ClaimVal)) (secret : Jwt.Secret) (o : Jwt.SignOptions)
    (now : Int) (t : Jwt.Token) (key' : Jwt.VerifyKey) (vo : Jwt.VerifyOptions)
    (now2 : Int)
    (hsign : Jwt.sign p secret o now = .ok t)
    (halg : o.algorithm.getD .HS256 ≠ .noneAlg)
    (hmat : secret.mat ≠ key'.mat)
    (halgs : ∀ algs, vo.algorithms = some algs →
      algs.contains (o.algorithm.getD .HS256) = true) :
    Jwt.verify t key' vo now2 = .error (.base ⟨"invalid signature", none⟩) := by
  obtain rfl := sign_ok_structure p secret o now t hsign halg
  have ha : (match vo.algorithms with
      | some algs => algs.contains (o.algorithm.getD .HS256)
      | none => true) = true := by
    rcases va : vo.algorithms with _ | algs
    · rfl
    · exact halgs algs va
  simp only [Jwt.verify, ha]
  rw [if_neg (by simp)]
  simp [hmat]

/-- Witness for C2: the example token signed with secret `k` is
rejected under the key `other` with the invalid-signature error. -/
theorem jwt_verify_wrong_key_rejected_witness :
    Jwt.verify Jwt.signedExampleToken (.str "other") Jwt.emptyVerifyOptions 1 =
      .error (.base ⟨"invalid signature", none⟩) :=
  jwt_verify_wrong_key_rejected [("role", Jwt.ClaimVal.str "admin")]
    (.str "k") {} 1 Jwt.signedExampleToken (.str "other")
    Jwt.emptyVerifyOptions 1 rfl (by decide) (by decide)
    (by intro algs h; simp [Jwt.emptyVerifyOptions] at h)

/-- After the expiration check, the remaining verification steps can
fail only with base errors: with no `maxAge` bound they never produce
an expired error. -/
theorem verifyClaims_no_expired (t : Jwt.Token) (o : Jwt.VerifyOptions)
    (clock tol : Int) (hmax : o.maxAge = none) (e : Jwt.TokenExpiredError) :
    Jwt.verify.verifyClaims t o clock tol ≠ .error (.expired e) := by
  intro h
  simp only [Jwt.verify.verifyClaims, Jwt.verify.verifyIss, Jwt.verify.verifySub,
    Jwt.verify.verifyJti, Jwt.verify.verifyMaxAge, hmax] at h
  iterate 12 (all_goals (try split at h))
  all_goals simp_all

/-- C3: for a token signed with a non-positive `expiresIn`, verifying
after any nonzero delay (zero clock tolerance, no `maxAge` bound, no
not-before) yields the `TokenExpiredError` carrying the expiration
instant exactly when expiration checking is not bypassed by
`ignoreExpiration`. -/
theorem jwt_expired_iff_not_bypassed
    (p : List (String × Jwt.ClaimVal)) (secret : Jwt.Secret) (key : Jwt.VerifyKey)
    (o : Jwt.SignOptions) (vo : Jwt.VerifyOptions) (now now2 : Int)
    (t : Jwt.Token) (d : Int)
    (hsign : Jwt.sign p secret o now = .ok t)
    (halgn : o.algorithm.getD .HS256 ≠ .noneAlg)
    (hd : o.expiresIn = some d) (hd0 : d ≤ 0)
    (hnb : o.notBefore = none)
    (hkey : secret.mat = key.mat)
    (halgs : ∀ algs, vo.algorithms = some algs →
      algs.contains (o.algorithm.getD .HS256) = true)
    (htol : vo.clockTolerance = none)
    (hmax : vo.maxAge = none)
    (hclock : now < vo.clockTimestamp.getD now2) :
    (∃ e, Jwt.verify t key vo now2 = .error (.expired e) ∧ e.expiredAt = now + d)
      ↔ vo.ignoreExpiration = false := by
  obtain rfl := sign_ok_structure p secret o now t hsign halgn
  have ha : (match vo.algorithms with
      | some algs => algs.contains (o.algorithm.getD .HS256)
      | none => true) = true := by
    rcases va : vo.algorithms with _ | algs
    · rfl
    · exact halgs algs va
  have hver : Jwt.verify
      ⟨o.algorithm.getD .HS256, o.keyid, Jwt.signedClaims p o now,
        some ⟨o.algorithm.getD .HS256, secret.mat, Jwt.signedClaims p o now⟩⟩
      key vo now2 =
      (if ¬ vo.ignoreExpiration ∧
          (now + d) + vo.clockTolerance.getD 0 ≤ vo.clockTimestamp.getD now2
       then .error (.expired ⟨⟨"jwt expired", none⟩, now + d⟩)
       else Jwt.verify.verifyClaims
         ⟨o.algorithm.getD .HS256, o.keyid, Jwt.signedClaims p o now,
           some ⟨o.algorithm.getD .HS256, secret.mat, Jwt.signedClaims p o now⟩⟩
         vo (vo.clockTimestamp.getD now2) (vo.clockTolerance.getD 0)) := by
    simp only [Jwt.verify, ha]
    rw [if_neg (by simp)]
    rw [if_pos (by simp [hkey])]
    simp only [Jwt.signedClaims, hnb, Option.map_none']
    simp only [Jwt.verify.verifyAfterNbf, hd, Option.map_some']
  rw [hver, htol, Option.getD_none]
  cases hig : vo.ignoreExpiration with
  | false =>
    rw [if_pos ⟨by simp, by omega⟩]
    simp
  | true =>
    rw [if_neg (by simp)]
    exact ⟨fun ⟨e, he, _⟩ =>
      absurd he (verifyClaims_no_expired _ vo _ _ hmax e),
      fun h => Bool.noConfusion h⟩

/-- Witness for C3: signing with `expiresIn = 0` at time 10 and
verifying at time 20 with default options (expiration not bypassed)
yields the expired error carrying instant 10. -/
theorem jwt_expired_iff_not_bypassed_witness :
    (∃ e, Jwt.verify Jwt.expiredExampleToken (.str "k")
        Jwt.emptyVerifyOptions 20 = .error (.expired e) ∧
      e.expiredAt = 10 + 0) ↔
    Jwt.emptyVerifyOptions.ignoreExpiration = false :=
  jwt_expired_iff_not_bypassed [] (.str "k") (.str "k")
    Jwt.expireNowOptions Jwt.emptyVerifyOptions 10 20
    Jwt.expiredExampleToken 0
    rfl (by decide) rfl (by decide) rfl rfl
    (by intro algs h; simp [Jwt.emptyVerifyOptions] at h)
    rfl rfl (by decide)
